import Mathlib

/-!
A shallow embedding of the station-resolution and real-time arrival-extraction
pipeline of `src/subway_bot.py` (the function `get_subway_time`, lines 72-133,
together with the `FEED_URLS` table and the degraded station table produced by
`load_stations` on a failed download), and theorems settling the specification
claims about it.

Modelling conventions:
* Python strings are Lean `String`s; the Python string operations used by the
  source (`upper`, `lower`, `startswith`, `endswith`, substring containment
  via `str.contains`, `split`, `int(...)`, `str(...)`) are modelled at the
  character-list level by the `py*` functions below, which agree with Python
  on the ASCII data this program manipulates.
* `pandas` DataFrames are modelled as `Option (List StationRecord)`:
  `some rows` is a well-formed table with the three columns the code reads;
  `none` is the column-less `pd.DataFrame()` that `load_stations` returns when
  the download fails, on which `STATIONS_DF['stop_name']` raises `KeyError`.
* `pd.Series.str.contains(pat, case=False, na=False)` is modelled as
  case-insensitive substring containment with missing values mapped to
  `False`. Caveat: pandas defaults to `regex=True`, so the program actually
  hands `pat` to `re.search`; that coincides with literal substring
  containment exactly when `pat` contains no regex metacharacter (true of
  every pattern this file evaluates concretely, and always true of the
  `routes` narrowing, whose patterns are the single-character keys of
  `FEED_URLS`). For a `station_name` carrying a metacharacter the program
  diverges from this model: it can exclude a row whose name literally
  contains the pattern (e.g. pattern `a+b` against name `xa+by`), and a
  malformed pattern such as `(` makes `re` raise. The embedding implements
  the literal reading and does not reproduce that regex behaviour.
* The GTFS-realtime protobuf message is modelled structurally: an entity
  optionally carries a trip update (`entity.HasField('trip_update')`), a trip
  update carries its trip's `route_id` (never read by the code) and a list of
  per-stop predictions, and `update.arrival.time` is an integer that protobuf
  defaults to `0` when the arrival field is absent.
* `time.time()` is modelled as an integer number of epoch seconds `now`;
  `int((arrival - now) / 60)` truncates toward zero, i.e. `Int.tdiv`.
* Python's `list.sort` is a stable sort; a stable sort with respect to a
  total, transitive comparison is uniquely determined by it, so it is
  modelled by the structurally recursive `List.insertionSort`.
* The network fetch and protobuf parse (wrapped in `try/except` by the
  source) are an external collaborator; the embedding receives their outcome
  as an `Except String FeedMessage` argument.
-/

namespace SubwayBot

/-- Python `s.upper()` (ASCII). -/
def pyUpper (s : String) : String := ⟨s.data.map Char.toUpper⟩

/-- Python `s.lower()` (ASCII). -/
def pyLower (s : String) : String := ⟨s.data.map Char.toLower⟩

/-- Python `s.startswith(p)`. -/
def pyStartsWith (s p : String) : Bool := p.data.isPrefixOf s.data

/-- Python `s.endswith(p)`. -/
def pyEndsWith (s p : String) : Bool := p.data.isSuffixOf s.data

/-- `pat` occurs as a contiguous sublist of `hay`. -/
def listContains (pat : List Char) : List Char → Bool
  | [] => pat.isEmpty
  | c :: t => pat.isPrefixOf (c :: t) || listContains pat t

/-- Python `pat in hay` on strings: substring containment. -/
def pyContains (hay pat : String) : Bool := listContains pat.data hay.data

/-- Case-insensitive substring containment, the literal-pattern reading of
`str.contains(pat, case=False)`. pandas' default `regex=True` actually
interprets `pat` as a regular expression; the two readings agree exactly
when `pat` has no regex metacharacter, and differ otherwise (the regex
search can miss a literally-contained metacharacter pattern, or raise on a
malformed one) — a divergence this model deliberately does not follow. -/
def pyContainsCI (hay pat : String) : Bool := pyContains (pyLower hay) (pyLower pat)

/-- Decimal digits of a natural number, most significant first, with
structural fuel (`fuel > n` suffices); mirrors `str(n)` for `n : Nat`. -/
def natDigitsCore : Nat → Nat → List Char → List Char
  | 0, _, acc => acc
  | fuel + 1, n, acc =>
    if n < 10 then Nat.digitChar n :: acc
    else natDigitsCore fuel (n / 10) (Nat.digitChar (n % 10) :: acc)

/-- Decimal digit string of a natural number. -/
def natDigits (n : Nat) : List Char := natDigitsCore (n + 1) n []

/-- Python `str(m)` for an integer `m`. -/
def intStr (m : Int) : String :=
  if m < 0 then ⟨'-' :: natDigits (-m).toNat⟩ else ⟨natDigits m.toNat⟩

/-- Value of a digit string read in base 10 (used by the model of `int`). -/
def digitsVal (cs : List Char) : Nat :=
  cs.foldl (fun a c => a * 10 + (c.toNat - '0'.toNat)) 0

/-- Python `int(s)` on an unsigned decimal string: `some` value on a
non-empty all-digit string, `none` where Python would raise `ValueError`. -/
def parseNat (cs : List Char) : Option Nat :=
  if !cs.isEmpty && cs.all Char.isDigit then some (digitsVal cs) else none

/-- Python `int(s)` including an optional leading minus sign. -/
def parseInt : List Char → Option Int
  | [] => none
  | c :: rest =>
    if c = '-' then (parseNat rest).map fun n => -(n : Int)
    else (parseNat (c :: rest)).map fun n => (n : Int)

/-- Split a character list on single spaces; on the single-space-separated
strings this program builds it coincides with Python `s.split()`. -/
def splitSp : List Char → List (List Char)
  | [] => [[]]
  | c :: cs =>
    if c = ' ' then [] :: splitSp cs
    else
      match splitSp cs with
      | [] => [[c]]
      | w :: ws => (c :: w) :: ws

/-- The sort key `lambda x: int(x.split()[2])` of line 124 of the source. -/
def sortKey (s : String) : Int :=
  (parseInt ((splitSp s.data).getD 2 [])).getD 0

/-- The comparison relation induced by the sort key. -/
def keyLE (a b : String) : Prop := sortKey a ≤ sortKey b

instance : DecidableRel keyLE := fun a b => by unfold keyLE; infer_instance

instance : IsTotal String keyLE := ⟨fun a b => Int.le_total (sortKey a) (sortKey b)⟩

instance : IsTrans String keyLE := ⟨fun _ _ _ hab hbc => Int.le_trans hab hbc⟩

/-- One row of the static station table (columns renamed by `load_stations`:
`GTFS Stop ID`, `Stop Name`, `Daytime Routes`); `none` models a missing
(`NaN`) cell. -/
structure StationRecord where
  stop_id : String
  stop_name : Option String
  routes : Option String
deriving DecidableEq

/-- The `FEED_URLS` dictionary of lines 16-40 of the source. -/
def FEED_URLS : List (String × String) := [
  ("1", "https://api-endpoint.mta.info/Dataservice/mtagtfsfeeds/nyct%2Fgtfs"),
  ("2", "https://api-endpoint.mta.info/Dataservice/mtagtfsfeeds/nyct%2Fgtfs"),
  ("3", "https://api-endpoint.mta.info/Dataservice/mtagtfsfeeds/nyct%2Fgtfs"),
  ("4", "https://api-endpoint.mta.info/Dataservice/mtagtfsfeeds/nyct%2Fgtfs"),
  ("5", "https://api-endpoint.mta.info/Dataservice/mtagtfsfeeds/nyct%2Fgtfs"),
  ("6", "https://api-endpoint.mta.info/Dataservice/mtagtfsfeeds/nyct%2Fgtfs"),
  ("S", "https://api-endpoint.mta.info/Dataservice/mtagtfsfeeds/nyct%2Fgtfs"),
  ("A", "https://api-endpoint.mta.info/Dataservice/mtagtfsfeeds/nyct%2Fgtfs-ace"),
  ("C", "https://api-endpoint.mta.info/Dataservice/mtagtfsfeeds/nyct%2Fgtfs-ace"),
  ("E", "https://api-endpoint.mta.info/Dataservice/mtagtfsfeeds/nyct%2Fgtfs-ace"),
  ("N", "https://api-endpoint.mta.info/Dataservice/mtagtfsfeeds/nyct%2Fgtfs-nqrw"),
  ("Q", "https://api-endpoint.mta.info/Dataservice/mtagtfsfeeds/nyct%2Fgtfs-nqrw"),
  ("R", "https://api-endpoint.mta.info/Dataservice/mtagtfsfeeds/nyct%2Fgtfs-nqrw"),
  ("W", "https://api-endpoint.mta.info/Dataservice/mtagtfsfeeds/nyct%2Fgtfs-nqrw"),
  ("B", "https://api-endpoint.mta.info/Dataservice/mtagtfsfeeds/nyct%2Fgtfs-bdfm"),
  ("D", "https://api-endpoint.mta.info/Dataservice/mtagtfsfeeds/nyct%2Fgtfs-bdfm"),
  ("F", "https://api-endpoint.mta.info/Dataservice/mtagtfsfeeds/nyct%2Fgtfs-bdfm"),
  ("M", "https://api-endpoint.mta.info/Dataservice/mtagtfsfeeds/nyct%2Fgtfs-bdfm"),
  ("L", "https://api-endpoint.mta.info/Dataservice/mtagtfsfeeds/nyct%2Fgtfs-l"),
  ("G", "https://api-endpoint.mta.info/Dataservice/mtagtfsfeeds/nyct%2Fgtfs-g"),
  ("J", "https://api-endpoint.mta.info/Dataservice/mtagtfsfeeds/nyct%2Fgtfs-jz"),
  ("Z", "https://api-endpoint.mta.info/Dataservice/mtagtfsfeeds/nyct%2Fgtfs-jz"),
  ("7", "https://api-endpoint.mta.info/Dataservice/mtagtfsfeeds/nyct%2Fgtfs-7")]

/-- One per-stop prediction of a trip update. `arrival_time` models
`update.arrival.time`, which protobuf defaults to `0` when the arrival
field is absent. -/
structure StopTimeUpdate where
  stop_id : String
  arrival_time : Int
deriving DecidableEq

/-- A trip update; `route_id` is the route reported by the feed for this
trip (`trip_update.trip.route_id`), which the source never reads. -/
structure TripUpdate where
  route_id : String
  stop_time_update : List StopTimeUpdate
deriving DecidableEq

/-- A feed entity, optionally carrying a trip update
(`entity.HasField('trip_update')`). -/
structure FeedEntity where
  trip_update : Option TripUpdate
deriving DecidableEq

/-- A decoded GTFS-realtime feed message. -/
structure FeedMessage where
  entity : List FeedEntity
deriving DecidableEq

/-- All per-stop predictions of the feed, in the order the nested loops of
lines 112-114 of the source visit them. -/
def stopUpdates (feed : FeedMessage) : List StopTimeUpdate :=
  feed.entity.flatMap fun e =>
    match e.trip_update with
    | some tu => tu.stop_time_update
    | none => []

/-- Replace every trip's reported route by `g` of it (the stop predictions
are untouched); used to state that the extractor ignores routes. -/
def mapRoutes (g : String → String) (feed : FeedMessage) : FeedMessage :=
  ⟨feed.entity.map fun e =>
    ⟨e.trip_update.map fun tu => ⟨g tu.route_id, tu.stop_time_update⟩⟩⟩

/-- Line 119 of the source:
`"Northbound" if update.stop_id.endswith('N') else "Southbound"`. -/
def directionOf (sid : String) : String :=
  if pyEndsWith sid "N" then "Northbound" else "Southbound"

/-- Line 120 of the source: `int((arrival_time - current_time) / 60)`,
truncation toward zero. -/
def minutesUntil (arrival now : Int) : Int := Int.tdiv (arrival - now) 60

/-- Line 121 of the source: `f"{direction} in {minutes} min"`. -/
def mkDesc (sid : String) (m : Int) : String :=
  directionOf sid ++ " in " ++ intStr m ++ " min"

/-- Lines 108-121 of the source: the `arrivals` list as built by the nested
loops, in feed order. -/
def collectArrivals (feed : FeedMessage) (stop_id : String) (now : Int) : List String :=
  (stopUpdates feed).filterMap fun u =>
    if pyStartsWith u.stop_id stop_id then
      if u.arrival_time > now then
        some (mkDesc u.stop_id (minutesUntil u.arrival_time now))
      else none
    else none

/-- The candidate set of line 85 (and the fallback of line 94) of the
source: rows whose `stop_name` contains `station_name` case-insensitively,
with missing names excluded (`na=False`). The source's pattern is the raw
user-supplied `station_name`, which pandas interprets as a regular
expression; this definition uses the literal reading of `pyContainsCI`,
exact for metacharacter-free names (see its caveat). -/
def nameMatches (table : List StationRecord) (station_name : String) : List StationRecord :=
  table.filter fun r =>
    match r.stop_name with
    | some s => pyContainsCI s station_name
    | none => false

/-- The narrowing of line 91 of the source: rows whose `routes` string
contains the (uppercased) line code, missing routes excluded. -/
def routeMatches (rows : List StationRecord) (lineU : String) : List StationRecord :=
  rows.filter fun r =>
    match r.routes with
    | some s => pyContains s lineU
    | none => false

/-- The observable outcomes of `get_subway_time`. The first four model the
JSON strings the source returns (`{"error": ...}` for `unsupported`,
`stationNotFound` and `fetchFailed`, `{"status": ...}` for `noUpcoming`,
and the final `{"station":..., "line":..., "arrivals":...}` for `ok`);
`raised` models an uncaught Python exception escaping the function. -/
inductive BotResult where
  | raised (msg : String)
  | unsupported (lineU : String)
  | stationNotFound (station_name : String)
  | fetchFailed (msg : String)
  | noUpcoming (lineU official_name : String)
  | ok (official_name lineU : String) (arrivals : List String)
deriving DecidableEq

/-- Lines 100-133 of the source: everything after station resolution.
`fetch` is the outcome of the `requests.get` + `ParseFromString` block. -/
def fetchAndExtract (fetch : Except String FeedMessage) (now : Int)
    (lineU official_name stop_id : String) : BotResult :=
  match fetch with
  | .error e => .fetchFailed e
  | .ok feed =>
    let arrivals := List.insertionSort keyLE (collectArrivals feed stop_id now)
    if arrivals.isEmpty then .noUpcoming lineU official_name
    else .ok official_name lineU (arrivals.take 5)

/-- Lines 72-98 of the source, `get_subway_time` up to station resolution,
continued by `fetchAndExtract`. `stations` is `STATIONS_DF` (`none` is the
column-less frame a failed `load_stations` leaves behind, on which the
column access of line 85 raises `KeyError`; selecting row 0 of an empty
frame would raise `IndexError`, which is unreachable). The `"nan"` default
for a missing selected name is likewise unreachable: selected rows passed
the name filter. -/
def get_subway_time (stations : Option (List StationRecord))
    (fetch : Except String FeedMessage) (now : Int)
    (line station_name : String) : BotResult :=
  let lineU := pyUpper line
  match List.lookup lineU FEED_URLS with
  | none => .unsupported lineU
  | some _ =>
    match stations with
    | none => .raised "KeyError: stop_name"
    | some table =>
      let m1 := nameMatches table station_name
      if m1.isEmpty then .stationNotFound station_name
      else
        let m2 := routeMatches m1 lineU
        let sel := if m2.isEmpty then nameMatches table station_name else m2
        match sel.head? with
        | none => .raised "IndexError"
        | some r => fetchAndExtract fetch now lineU (r.stop_name.getD "nan") r.stop_id

/-! ### Helper lemmas: the decimal print/parse round trip and the sort key -/

theorem natDigitsCore_append (fuel : Nat) :
    ∀ (n : Nat) (acc : List Char),
      natDigitsCore fuel n acc = natDigitsCore fuel n [] ++ acc := by
  induction fuel with
  | zero => intro n acc; simp [natDigitsCore]
  | succ fuel ih =>
    intro n acc
    by_cases h : n < 10
    · simp [natDigitsCore, h]
    · simp only [natDigitsCore, if_neg h]
      rw [ih (n / 10) (Nat.digitChar (n % 10) :: acc), ih (n / 10) [Nat.digitChar (n % 10)]]
      simp

theorem digitChar_isDigit {n : Nat} (h : n < 10) : (Nat.digitChar n).isDigit = true := by
  interval_cases n <;> decide

theorem digitChar_val {n : Nat} (h : n < 10) : (Nat.digitChar n).toNat = n + 48 := by
  interval_cases n <;> decide

theorem natDigitsCore_spec :
    ∀ fuel n : Nat, n < fuel →
      natDigitsCore fuel n [] ≠ [] ∧
        (natDigitsCore fuel n []).all Char.isDigit = true ∧
        digitsVal (natDigitsCore fuel n []) = n := by
  intro fuel
  induction fuel with
  | zero => intro n h; omega
  | succ fuel ih =>
    intro n hn
    by_cases h : n < 10
    · refine ⟨by simp [natDigitsCore, h], ?_, ?_⟩
      · simp [natDigitsCore, h, digitChar_isDigit h]
      · simp only [natDigitsCore, if_pos h, digitsVal, List.foldl_cons, List.foldl_nil,
          digitChar_val h, show Char.toNat '0' = 48 from rfl]
        omega
    · have hdiv : n / 10 < fuel := by
        have := Nat.div_lt_self (show 0 < n by omega) (show 1 < 10 by omega)
        omega
      obtain ⟨hne, hdig, hval⟩ := ih (n / 10) hdiv
      have hstep : natDigitsCore (fuel + 1) n [] =
          natDigitsCore fuel (n / 10) [] ++ [Nat.digitChar (n % 10)] := by
        simp only [natDigitsCore, if_neg h]
        exact natDigitsCore_append fuel (n / 10) [Nat.digitChar (n % 10)]
      have hm : n % 10 < 10 := Nat.mod_lt n (by omega)
      refine ⟨by simp [hstep], ?_, ?_⟩
      · simp [hstep, List.all_append, hdig, digitChar_isDigit hm]
      · rw [hstep, digitsVal, List.foldl_append]
        have : List.foldl (fun a c => a * 10 + (c.toNat - Char.toNat '0'))
            0 (natDigitsCore fuel (n / 10) []) = n / 10 := hval
        rw [this]
        simp only [List.foldl_cons, List.foldl_nil, digitChar_val hm,
          show Char.toNat '0' = 48 from rfl]
        omega

theorem parseNat_natDigits (n : Nat) : parseNat (natDigits n) = some n := by
  obtain ⟨hne, hdig, hval⟩ := natDigitsCore_spec (n + 1) n (Nat.lt_succ_self n)
  rw [parseNat, if_pos]
  · rw [natDigits, hval]
  · rw [natDigits]
    simp [hdig, List.isEmpty_iff, hne]

theorem isDigit_ne_space {c : Char} (h : c.isDigit = true) : c ≠ ' ' := by
  intro hc
  subst hc
  exact absurd h (by decide)

theorem isDigit_ne_minus {c : Char} (h : c.isDigit = true) : c ≠ '-' := by
  intro hc
  subst hc
  exact absurd h (by decide)

theorem natDigits_no_space (n : Nat) : ' ' ∉ natDigits n := by
  obtain ⟨_, hdig, _⟩ := natDigitsCore_spec (n + 1) n (Nat.lt_succ_self n)
  intro hmem
  have := List.all_eq_true.mp hdig ' ' hmem
  exact absurd this (by decide)

theorem intStr_no_space (m : Int) : ' ' ∉ (intStr m).data := by
  rw [intStr]
  split
  · intro hmem
    rcases List.mem_cons.mp hmem with h | h
    · exact absurd h.symm (by decide)
    · exact natDigits_no_space _ h
  · exact natDigits_no_space _

theorem parseInt_intStr (m : Int) : parseInt (intStr m).data = some m := by
  rw [intStr]
  by_cases hm : m < 0
  · rw [if_pos hm]
    show parseInt ('-' :: natDigits (-m).toNat) = some m
    rw [parseInt, if_pos rfl, parseNat_natDigits]
    have : ((-m).toNat : Int) = -m := Int.toNat_of_nonneg (by omega)
    simp [this]
  · rw [if_neg hm]
    show parseInt (natDigits m.toNat) = some m
    obtain ⟨hne, hdig, _⟩ := natDigitsCore_spec (m.toNat + 1) m.toNat (Nat.lt_succ_self _)
    rcases hcs : natDigits m.toNat with _ | ⟨c, rest⟩
    · exact absurd (by rw [natDigits] at hcs; exact hcs) hne
    · have hc : c.isDigit = true := by
        have hall : (natDigits m.toNat).all Char.isDigit = true := by rw [natDigits]; exact hdig
        rw [hcs, List.all_cons, Bool.and_eq_true] at hall
        exact hall.1
      rw [parseInt, if_neg (isDigit_ne_minus hc), ← hcs, parseNat_natDigits]
      have : (m.toNat : Int) = m := Int.toNat_of_nonneg (by omega)
      simp [this]

theorem splitSp_append (l₁ l₂ : List Char) (h : ' ' ∉ l₁) :
    splitSp (l₁ ++ ' ' :: l₂) = l₁ :: splitSp l₂ := by
  induction l₁ with
  | nil => simp [splitSp]
  | cons c cs ih =>
    have hc : ¬ c = ' ' := fun hcc => h (hcc ▸ List.mem_cons_self c cs)
    have h' : ' ' ∉ cs := fun hm => h (List.mem_cons_of_mem _ hm)
    rw [List.cons_append, splitSp, if_neg hc, ih h']

theorem splitSp_desc (d ms : List Char) (hd : ' ' ∉ d) (hms : ' ' ∉ ms) :
    splitSp (d ++ ' ' :: 'i' :: 'n' :: ' ' :: (ms ++ ' ' :: 'm' :: 'i' :: 'n' :: [])) =
      [d, ['i', 'n'], ms, ['m', 'i', 'n']] := by
  rw [splitSp_append _ _ hd]
  rw [show ('i' :: 'n' :: ' ' :: (ms ++ ' ' :: 'm' :: 'i' :: 'n' :: []) : List Char) =
        ['i', 'n'] ++ ' ' :: (ms ++ ' ' :: 'm' :: 'i' :: 'n' :: []) from rfl]
  rw [splitSp_append _ _ (by decide)]
  rw [splitSp_append _ _ hms]
  rfl

theorem data_mkDesc (sid : String) (m : Int) :
    (mkDesc sid m).data =
      (directionOf sid).data ++
        ' ' :: 'i' :: 'n' :: ' ' :: ((intStr m).data ++ ' ' :: 'm' :: 'i' :: 'n' :: []) := by
  simp only [mkDesc, String.data_append, List.append_assoc]
  rfl

theorem directionOf_no_space (sid : String) : ' ' ∉ (directionOf sid).data := by
  rw [directionOf]
  split <;> decide

/-- The sort key of line 124 recovers, from a rendered description, exactly
the minutes value that was printed into it. -/
theorem sortKey_mkDesc (sid : String) (m : Int) : sortKey (mkDesc sid m) = m := by
  rw [sortKey, data_mkDesc, splitSp_desc _ _ (directionOf_no_space sid) (intStr_no_space m)]
  show (parseInt (intStr m).data).getD 0 = m
  rw [parseInt_intStr]
  rfl

/-! ### Helper lemmas: membership characterisation and result inversion -/

theorem mem_collectArrivals {feed : FeedMessage} {stop : String} {now : Int} {a : String} :
    a ∈ collectArrivals feed stop now ↔
      ∃ u, u ∈ stopUpdates feed ∧ pyStartsWith u.stop_id stop = true ∧
        now < u.arrival_time ∧ a = mkDesc u.stop_id (minutesUntil u.arrival_time now) := by
  rw [collectArrivals, List.mem_filterMap]
  constructor
  · rintro ⟨u, hu, hf⟩
    by_cases h1 : pyStartsWith u.stop_id stop = true
    · by_cases h2 : u.arrival_time > now
      · rw [if_pos h1, if_pos h2] at hf
        exact ⟨u, hu, h1, h2, (Option.some_inj.mp hf).symm⟩
      · rw [if_pos h1, if_neg h2] at hf; cases hf
    · rw [if_neg h1] at hf; cases hf
  · rintro ⟨u, hu, h1, h2, rfl⟩
    exact ⟨u, hu, by rw [if_pos h1, if_pos h2]⟩

theorem fetchAndExtract_ok_inversion {fetch : Except String FeedMessage} {now : Int}
    {lineU official stop st ln : String} {arr : List String}
    (h : fetchAndExtract fetch now lineU official stop = .ok st ln arr) :
    ∃ feed, fetch = .ok feed ∧ st = official ∧ ln = lineU ∧
      arr = (List.insertionSort keyLE (collectArrivals feed stop now)).take 5 := by
  cases fetch with
  | error e => simp [fetchAndExtract] at h
  | ok feed =>
    simp only [fetchAndExtract] at h
    by_cases he : (List.insertionSort keyLE (collectArrivals feed stop now)).isEmpty = true
    · rw [if_pos he] at h; cases h
    · rw [if_neg he] at h
      cases h
      exact ⟨feed, rfl, rfl, rfl, rfl⟩

theorem fetchAndExtract_ne_stationNotFound {fetch : Except String FeedMessage} {now : Int}
    {lineU official stop s : String} :
    fetchAndExtract fetch now lineU official stop ≠ .stationNotFound s := by
  cases fetch with
  | error e => simp [fetchAndExtract]
  | ok feed =>
    simp only [fetchAndExtract]
    by_cases he : (List.insertionSort keyLE (collectArrivals feed stop now)).isEmpty = true
    · rw [if_pos he]; intro h; cases h
    · rw [if_neg he]; intro h; cases h

theorem get_ok_inversion {stations : Option (List StationRecord)}
    {fetch : Except String FeedMessage} {now : Int} {line name st ln : String}
    {arr : List String}
    (h : get_subway_time stations fetch now line name = .ok st ln arr) :
    ∃ table r feed, stations = some table ∧ fetch = .ok feed ∧
      r ∈ nameMatches table name ∧ st = r.stop_name.getD "nan" ∧ ln = pyUpper line ∧
      arr = (List.insertionSort keyLE (collectArrivals feed r.stop_id now)).take 5 := by
  simp only [get_subway_time] at h
  split at h
  · cases h
  · split at h
    · cases h
    · rename_i table
      split at h
      · cases h
      · split at h
        · cases h
        · rename_i hsel
          obtain ⟨feed, hfe, hst, hln, harr⟩ := fetchAndExtract_ok_inversion h
          refine ⟨table, _, feed, rfl, hfe, ?_, hst, hln, harr⟩
          obtain ⟨ys, hys⟩ := List.head?_eq_some_iff.mp hsel
          by_cases hrm :
              (routeMatches (nameMatches table name) (pyUpper line)).isEmpty = true
          · rw [if_pos hrm] at hys
            exact hys ▸ List.mem_cons_self _ _
          · rw [if_neg hrm] at hys
            have : _ ∈ routeMatches (nameMatches table name) (pyUpper line) :=
              hys ▸ List.mem_cons_self _ _
            rw [routeMatches] at this
            exact (List.mem_filter.mp this).1

theorem stopUpdates_mapRoutes (g : String → String) (feed : FeedMessage) :
    stopUpdates (mapRoutes g feed) = stopUpdates feed := by
  rw [stopUpdates, stopUpdates, mapRoutes, List.flatMap_map]
  apply List.flatMap_congr
  intro e _
  cases e.trip_update <;> rfl

theorem collectArrivals_mapRoutes (g : String → String) (feed : FeedMessage)
    (stop : String) (now : Int) :
    collectArrivals (mapRoutes g feed) stop now = collectArrivals feed stop now := by
  rw [collectArrivals, collectArrivals, stopUpdates_mapRoutes]

theorem fetchAndExtract_mapRoutes (g : String → String) (feed : FeedMessage) (now : Int)
    (lineU official stop : String) :
    fetchAndExtract (.ok (mapRoutes g feed)) now lineU official stop =
      fetchAndExtract (.ok feed) now lineU official stop := by
  simp only [fetchAndExtract, collectArrivals_mapRoutes]

theorem get_mapRoutes (g : String → String) (stations : Option (List StationRecord))
    (feed : FeedMessage) (now : Int) (line name : String) :
    get_subway_time stations (.ok (mapRoutes g feed)) now line name =
      get_subway_time stations (.ok feed) now line name := by
  simp only [get_subway_time]
  cases List.lookup (pyUpper line) FEED_URLS with
  | none => rfl
  | some url =>
    cases stations with
    | none => rfl
    | some table =>
      dsimp only
      by_cases h1 : (nameMatches table name).isEmpty = true
      · rw [if_pos h1, if_pos h1]
      · rw [if_neg h1, if_neg h1]
        generalize (if (routeMatches (nameMatches table name) (pyUpper line)).isEmpty = true
            then nameMatches table name
            else routeMatches (nameMatches table name) (pyUpper line)).head? = o
        cases o with
        | none => rfl
        | some r =>
          dsimp only
          exact fetchAndExtract_mapRoutes g feed now _ _ _

/-- Every element of a successful result arises from one qualifying feed
prediction: it passed the stop-prefix test against the resolved record's
`stop_id`, its arrival is strictly in the future, and the rendered text is
the direction/minutes description of that prediction. -/
theorem ok_arr_elem {stations : Option (List StationRecord)}
    {fetch : Except String FeedMessage} {now : Int} {line name st ln : String}
    {arr : List String} {a : String}
    (h : get_subway_time stations fetch now line name = .ok st ln arr) (ha : a ∈ arr) :
    ∃ table r feed u, stations = some table ∧ fetch = .ok feed ∧
      r ∈ nameMatches table name ∧ u ∈ stopUpdates feed ∧
      pyStartsWith u.stop_id r.stop_id = true ∧ now < u.arrival_time ∧
      a = mkDesc u.stop_id (minutesUntil u.arrival_time now) := by
  obtain ⟨table, r, feed, hs, hfe, hr, _, _, harr⟩ := get_ok_inversion h
  subst harr
  have h1 : a ∈ List.insertionSort keyLE (collectArrivals feed r.stop_id now) :=
    List.mem_of_mem_take ha
  have h2 : a ∈ collectArrivals feed r.stop_id now :=
    (List.perm_insertionSort keyLE _).mem_iff.mp h1
  obtain ⟨u, hu, hpre, htime, hdesc⟩ := mem_collectArrivals.mp h2
  exact ⟨table, r, feed, u, hs, hfe, hr, hu, hpre, htime, hdesc⟩

/-! ### Fixtures used by the concrete scenario and the witnesses -/

/-- The station table of the normal-case scenario. -/
def fixtureTable : List StationRecord := [⟨"635", some "Union Sq", some "456LNQR"⟩]

/-- The feed of the normal-case scenario: two L predictions at Union Sq,
northbound arriving in 300 s and southbound in 120 s. -/
def fixtureFeed (now : Int) : FeedMessage :=
  ⟨[⟨some ⟨"L", [⟨"635N", now + 300⟩, ⟨"635S", now + 120⟩]⟩⟩]⟩

theorem collect_fixtureFeed (now : Int) :
    collectArrivals (fixtureFeed now) "635" now =
      ["Northbound in 5 min", "Southbound in 2 min"] := by
  have h1 : now + 300 > now := by omega
  have h2 : now + 120 > now := by omega
  have e1 : now + 300 - now = 300 := by omega
  have e2 : now + 120 - now = 120 := by omega
  simp only [fixtureFeed, collectArrivals, stopUpdates, List.flatMap, List.filterMap,
    minutesUntil, h1, h2, e1, e2,
    show pyStartsWith "635N" "635" = true from by decide,
    show pyStartsWith "635S" "635" = true from by decide,
    if_true, ite_true]
  decide

theorem get_fixture (now : Int) :
    get_subway_time (some fixtureTable) (.ok (fixtureFeed now)) now "L" "Union Sq" =
      .ok "Union Sq" "L" ["Southbound in 2 min", "Northbound in 5 min"] := by
  have hup : pyUpper "L" = "L" := by decide
  have hurl : List.lookup "L" FEED_URLS =
      some "https://api-endpoint.mta.info/Dataservice/mtagtfsfeeds/nyct%2Fgtfs-l" := by decide
  have hnm : nameMatches fixtureTable "Union Sq" =
      [⟨"635", some "Union Sq", some "456LNQR"⟩] := by decide
  have hrm : routeMatches [⟨"635", some "Union Sq", some "456LNQR"⟩] "L" =
      [⟨"635", some "Union Sq", some "456LNQR"⟩] := by decide
  have hc := collect_fixtureFeed now
  simp only [get_subway_time, fetchAndExtract, hup, hurl, hnm, hrm, hc, List.isEmpty,
    List.head?, Bool.false_eq_true, if_false, ite_false]
  decide

/-! ### The claims -/

/-- C1: with the single-record table `{stop_id "635", stop_name "Union Sq",
routes "456LNQR"}` and a payload holding exactly an L prediction at stop
`635N` arriving at `now + 300` and one at `635S` arriving at `now + 120`,
extraction (limit 5) returns exactly
`["Southbound in 2 min", "Northbound in 5 min"]`, with each minutes value
`floor((arrival - now) / 60)` computed by truncation toward zero. -/
theorem C1_normal_scenario (now : Int) :
    get_subway_time (some fixtureTable) (.ok (fixtureFeed now)) now "L" "Union Sq" =
      .ok "Union Sq" "L" ["Southbound in 2 min", "Northbound in 5 min"] ∧
    minutesUntil (now + 300) now = 5 ∧ minutesUntil (now + 120) now = 2 := by
  refine ⟨get_fixture now, ?_, ?_⟩
  · rw [minutesUntil, show now + 300 - now = 300 from by omega]; decide
  · rw [minutesUntil, show now + 120 - now = 120 from by omega]; decide

/-- C2: every arrival of a successful result arises from a feed prediction
whose arrival epoch is strictly greater than `now`; a prediction whose
arrival epoch is absent (0 in the protobuf model), zero, or not in the
strict future never contributes an element. -/
theorem C2_freshness {stations : Option (List StationRecord)}
    {fetch : Except String FeedMessage} {now : Int} {line name st ln : String}
    {arr : List String}
    (h : get_subway_time stations fetch now line name = .ok st ln arr) :
    ∀ a ∈ arr, ∃ feed u, fetch = .ok feed ∧ u ∈ stopUpdates feed ∧
      u.arrival_time > now ∧ (0 ≤ now → u.arrival_time ≠ 0) ∧
      a = mkDesc u.stop_id (minutesUntil u.arrival_time now) := by
  intro a ha
  obtain ⟨table, r, feed, u, _, hfe, _, hu, _, htime, hdesc⟩ := ok_arr_elem h ha
  exact ⟨feed, u, hfe, hu, htime, fun _ => by omega, hdesc⟩

theorem C2_freshness_witness :
    ∃ feed u, (Except.ok (fixtureFeed 0) : Except String FeedMessage) = .ok feed ∧
      u ∈ stopUpdates feed ∧ u.arrival_time > 0 ∧ (0 ≤ (0 : Int) → u.arrival_time ≠ 0) ∧
      "Southbound in 2 min" = mkDesc u.stop_id (minutesUntil u.arrival_time 0) :=
  @C2_freshness (some fixtureTable) (.ok (fixtureFeed 0)) 0 "L" "Union Sq" "Union Sq" "L"
    ["Southbound in 2 min", "Northbound in 5 min"] (by decide)
    "Southbound in 2 min" (by decide)

/-- C3: the arrivals list of a successful result is sorted ascending by the
sort key of line 124 (which recovers exactly each element's minutes-until
value, itself determined by the generating prediction's arrival epoch), and
its length is at most the hard-coded limit of 5. -/
theorem C3_ordering_and_bound {stations : Option (List StationRecord)}
    {fetch : Except String FeedMessage} {now : Int} {line name st ln : String}
    {arr : List String}
    (h : get_subway_time stations fetch now line name = .ok st ln arr) :
    List.Sorted keyLE arr ∧ arr.length ≤ 5 ∧
      ∀ a ∈ arr, ∃ feed u, fetch = .ok feed ∧ u ∈ stopUpdates feed ∧
        now < u.arrival_time ∧ sortKey a = minutesUntil u.arrival_time now := by
  obtain ⟨table, r, feed, hs, hfe, hr, hst, hln, harr⟩ := get_ok_inversion h
  refine ⟨?_, ?_, ?_⟩
  · subst harr
    exact List.Pairwise.sublist (List.take_sublist _ _) (List.sorted_insertionSort keyLE _)
  · subst harr
    exact List.length_take_le _ _
  · intro a ha
    obtain ⟨table', r', feed', u, _, hfe', _, hu, _, htime, hdesc⟩ := ok_arr_elem h ha
    exact ⟨feed', u, hfe', hu, htime, by rw [hdesc, sortKey_mkDesc]⟩

theorem C3_ordering_and_bound_witness :
    List.Sorted keyLE ["Southbound in 2 min", "Northbound in 5 min"] ∧
      (["Southbound in 2 min", "Northbound in 5 min"] : List String).length ≤ 5 ∧
      ∀ a ∈ (["Southbound in 2 min", "Northbound in 5 min"] : List String),
        ∃ feed u, (Except.ok (fixtureFeed 0) : Except String FeedMessage) = .ok feed ∧
          u ∈ stopUpdates feed ∧ (0 : Int) < u.arrival_time ∧
          sortKey a = minutesUntil u.arrival_time 0 :=
  @C3_ordering_and_bound (some fixtureTable) (.ok (fixtureFeed 0)) 0 "L" "Union Sq" "Union Sq"
    "L" ["Southbound in 2 min", "Northbound in 5 min"] (by decide)

/-- C4: every element of a successful result comes from a prediction whose
stop identifier starts with the resolved record's `stop_id` (prefix match,
not equality); and no route filter is applied: the result is invariant
under arbitrary rewriting of every trip's reported route, and any
prediction whose stop identifier has the required prefix and whose arrival
qualifies is collected, whatever its trip's route. -/
theorem C4_prefix_and_no_route_filter (stations : Option (List StationRecord))
    (fetch : Except String FeedMessage) (now : Int) (line name : String) :
    (∀ st ln arr, get_subway_time stations fetch now line name = .ok st ln arr →
      ∀ a ∈ arr, ∃ table r feed u, stations = some table ∧ r ∈ nameMatches table name ∧
        fetch = .ok feed ∧ u ∈ stopUpdates feed ∧ pyStartsWith u.stop_id r.stop_id = true ∧
        a = mkDesc u.stop_id (minutesUntil u.arrival_time now)) ∧
    (∀ (g : String → String) (feed : FeedMessage),
      get_subway_time stations (.ok (mapRoutes g feed)) now line name =
        get_subway_time stations (.ok feed) now line name) ∧
    (∀ (feed : FeedMessage) (stop : String) (u : StopTimeUpdate), u ∈ stopUpdates feed →
      pyStartsWith u.stop_id stop = true → now < u.arrival_time →
      mkDesc u.stop_id (minutesUntil u.arrival_time now) ∈ collectArrivals feed stop now) := by
  refine ⟨?_, ?_, ?_⟩
  · intro st ln arr h a ha
    obtain ⟨table, r, feed, u, hs, hfe, hr, hu, hpre, _, hdesc⟩ := ok_arr_elem h ha
    exact ⟨table, r, feed, u, hs, hr, hfe, hu, hpre, hdesc⟩
  · intro g feed
    exact get_mapRoutes g stations feed now line name
  · intro feed stop u hu hpre htime
    exact mem_collectArrivals.mpr ⟨u, hu, hpre, htime, rfl⟩

theorem C4_prefix_and_no_route_filter_witness :
    mkDesc "635N" (minutesUntil 300 0) ∈ collectArrivals (fixtureFeed 0) "635" 0 :=
  (C4_prefix_and_no_route_filter (some fixtureTable) (.ok (fixtureFeed 0)) 0 "L"
      "Union Sq").2.2 (fixtureFeed 0) "635" ⟨"635N", 300⟩ (by decide) (by decide) (by decide)

/-- C5: whenever the case-insensitive name match yields a non-empty
candidate set and narrowing those candidates by the `routes` field yields
the empty set, resolution falls back to the head of the pre-narrowing
candidate set and the outcome is never a station-not-found error. -/
theorem C5_route_narrowing_fallback {table : List StationRecord}
    {fetch : Except String FeedMessage} {now : Int} {line name : String}
    (hsupp : (List.lookup (pyUpper line) FEED_URLS).isSome = true)
    (hname : nameMatches table name ≠ [])
    (hnarrow : routeMatches (nameMatches table name) (pyUpper line) = []) :
    ∃ r, (nameMatches table name).head? = some r ∧
      get_subway_time (some table) fetch now line name =
        fetchAndExtract fetch now (pyUpper line) (r.stop_name.getD "nan") r.stop_id ∧
      ∀ s, get_subway_time (some table) fetch now line name ≠ .stationNotFound s := by
  obtain ⟨url, hurl⟩ := Option.isSome_iff_exists.mp hsupp
  rcases hm : nameMatches table name with _ | ⟨r, t⟩
  · exact absurd hm hname
  · rw [hm] at hnarrow
    have hget : get_subway_time (some table) fetch now line name =
        fetchAndExtract fetch now (pyUpper line) (r.stop_name.getD "nan") r.stop_id := by
      simp only [get_subway_time, hurl, hm, hnarrow, List.isEmpty_cons, List.isEmpty_nil,
        Bool.false_eq_true, if_false, if_true, ite_false, ite_true, List.head?_cons]
    exact ⟨r, rfl, hget, fun s => by rw [hget]; exact fetchAndExtract_ne_stationNotFound⟩

theorem C5_route_narrowing_fallback_witness :
    ∃ r, (nameMatches [⟨"635", some "Union Sq", some "456"⟩] "Union Sq").head? = some r ∧
      get_subway_time (some [⟨"635", some "Union Sq", some "456"⟩])
          (.ok ⟨[]⟩) 0 "L" "Union Sq" =
        fetchAndExtract (.ok ⟨[]⟩) 0 (pyUpper "L") (r.stop_name.getD "nan") r.stop_id ∧
      ∀ s, get_subway_time (some [⟨"635", some "Union Sq", some "456"⟩])
          (.ok ⟨[]⟩) 0 "L" "Union Sq" ≠ .stationNotFound s :=
  C5_route_narrowing_fallback (by decide) (by decide) (by decide)

/-- C6: the claim says a failed station-table load must degrade every query
to a station-not-found result; the code instead leaves `STATIONS_DF` as the
column-less `pd.DataFrame()`, on which the column access of line 85 raises
`KeyError`, so a query against the degraded table raises instead of
returning a not-found result. -/
theorem C6_degraded_table_raises :
    get_subway_time none (.ok ⟨[]⟩) 1700000000 "L" "Union Sq" =
      .raised "KeyError: stop_name" := by decide

/-- C8: a line code whose uppercasing has no feed mapping yields the
unsupported-line error whatever the station table (even the degraded one),
the fetch outcome and the station name: the failure happens before any
table lookup and the station name is never consulted. -/
theorem C8_unsupported_line_short_circuit {line : String}
    (h : List.lookup (pyUpper line) FEED_URLS = none)
    (stations : Option (List StationRecord)) (fetch : Except String FeedMessage)
    (now : Int) (name : String) :
    get_subway_time stations fetch now line name = .unsupported (pyUpper line) := by
  simp only [get_subway_time, h]

theorem C8_unsupported_line_short_circuit_witness :
    get_subway_time none (.ok ⟨[]⟩) 0 "x" "Union Sq" = .unsupported (pyUpper "x") :=
  C8_unsupported_line_short_circuit (by decide) none (.ok ⟨[]⟩) 0 "Union Sq"

/-- C9, counterexample to the claim as stated: a prediction whose stop
identifier ends in `X` (neither `N` nor `S`) is accepted and rendered with
direction "Southbound": the implementation silently defaults to one of the
two directions instead of exhibiting a distinct behaviour. -/
theorem C9_direction_counterexample :
    collectArrivals ⟨[⟨some ⟨"L", [⟨"635X", 1000⟩]⟩⟩]⟩ "635" 900 =
      ["Southbound in 1 min"] ∧
    pyEndsWith "635X" "N" = false ∧ pyEndsWith "635X" "S" = false := by decide

/-- C9 as amended: the direction of an accepted prediction is derived from
the last character of its stop identifier, with suffix `N` rendered
"Northbound" and every other identifier (suffix `S`, any other suffix, or
no suffix) silently rendered "Southbound"; there is no distinct variant for
unexpected suffixes. -/
theorem C9_direction_default {feed : FeedMessage} {stop : String} {now : Int} :
    ∀ a ∈ collectArrivals feed stop now, ∃ u, u ∈ stopUpdates feed ∧
      a = (if pyEndsWith u.stop_id "N" = true then "Northbound" else "Southbound") ++
        " in " ++ intStr (minutesUntil u.arrival_time now) ++ " min" := by
  intro a ha
  obtain ⟨u, hu, _, _, hdesc⟩ := mem_collectArrivals.mp ha
  exact ⟨u, hu, by rw [hdesc, mkDesc, directionOf]⟩

theorem C9_direction_default_witness :
    ∃ u, u ∈ stopUpdates ⟨[⟨some ⟨"L", [⟨"635X", 1000⟩]⟩⟩]⟩ ∧
      "Southbound in 1 min" =
        (if pyEndsWith u.stop_id "N" = true then "Northbound" else "Southbound") ++
          " in " ++ intStr (minutesUntil u.arrival_time 900) ++ " min" :=
  @C9_direction_default ⟨[⟨some ⟨"L", [⟨"635X", 1000⟩]⟩⟩]⟩ "635" 900
    "Southbound in 1 min" (by decide)

/-- C10: every arrival description of a successful result carries a
non-negative minutes value, and a prediction strictly in the future by less
than 60 seconds is accepted and rendered with 0 minutes, never a negative
value. -/
theorem C10_nonnegative_minutes (stations : Option (List StationRecord))
    (fetch : Except String FeedMessage) (now : Int) (line name : String) :
    (∀ st ln arr, get_subway_time stations fetch now line name = .ok st ln arr →
      ∀ a ∈ arr, ∃ feed u, fetch = .ok feed ∧ u ∈ stopUpdates feed ∧
        0 ≤ minutesUntil u.arrival_time now ∧
        a = mkDesc u.stop_id (minutesUntil u.arrival_time now)) ∧
    (∀ (feed : FeedMessage) (stop : String) (u : StopTimeUpdate),
      u ∈ stopUpdates feed → pyStartsWith u.stop_id stop = true →
      now < u.arrival_time → u.arrival_time < now + 60 →
      minutesUntil u.arrival_time now = 0 ∧
        mkDesc u.stop_id 0 ∈ collectArrivals feed stop now) := by
  constructor
  · intro st ln arr h a ha
    obtain ⟨table, r, feed, u, _, hfe, _, hu, _, htime, hdesc⟩ := ok_arr_elem h ha
    refine ⟨feed, u, hfe, hu, ?_, hdesc⟩
    rw [minutesUntil]
    exact Int.tdiv_nonneg (by omega) (by omega)
  · intro feed stop u hu hpre ht1 ht2
    have hz : minutesUntil u.arrival_time now = 0 := by
      rw [minutesUntil]
      exact Int.tdiv_eq_zero_of_lt (by omega) (by omega)
    refine ⟨hz, ?_⟩
    have hmem := mem_collectArrivals.mpr ⟨u, hu, hpre, ht1, rfl⟩
    rw [hz] at hmem
    exact hmem

theorem C10_nonnegative_minutes_witness :
    minutesUntil 930 900 = 0 ∧
      mkDesc "635N" 0 ∈
        collectArrivals ⟨[⟨some ⟨"L", [⟨"635N", 930⟩]⟩⟩]⟩ "635" 900 :=
  (C10_nonnegative_minutes (some fixtureTable) (.ok ⟨[⟨some ⟨"L", [⟨"635N", 930⟩]⟩⟩]⟩)
      900 "L" "Union Sq").2 ⟨[⟨some ⟨"L", [⟨"635N", 930⟩]⟩⟩]⟩ "635"
    ⟨"635N", 930⟩ (by decide) (by decide) (by decide) (by decide)

end SubwayBot
